import Mathlib

/-!
Verification of the fairness-based housing allocation core
(`calculateFairnessScore` and `allocateHousing`).

The source is TypeScript operating on JavaScript numbers; the embedding
uses exact rational arithmetic (ℚ).  JavaScript `Math.round` is modelled
as `x ↦ ⌊x + 1/2⌋` (round half toward +∞), `Array.prototype.sort` with
the comparator `(a, b) ↦ (b.fairnessScore || 0) - (a.fairnessScore || 0)`
is modelled as a stable merge sort with the relation
"score of the second argument ≤ score of the first", and
`Array.prototype.slice(0, end)` is modelled with JavaScript's
negative-end clamping semantics.
-/

/-- Embeds the `Applicant` interface: id, name, annual income, family
size, disability flag, distance to work, and an optional fairness score. -/
structure Applicant where
  id : String
  name : String
  income : ℚ
  familySize : ℚ
  hasDisability : Bool
  distanceToWork : ℚ
  fairnessScore : Option ℚ := none
  deriving Repr, DecidableEq

/-- Embeds the constant `maxIncome = 100000` used for income normalization. -/
def maxIncome : ℚ := 100000

/-- Embeds the constant `maxDistance = 50` used for commute normalization. -/
def maxDistance : ℚ := 50

/-- Embeds the income component: `Math.max(0, 100 - (income / maxIncome) * 100)`. -/
def incomeScoreOf (income : ℚ) : ℚ := max 0 (100 - (income / maxIncome) * 100)

/-- Embeds the family size component: `Math.min(familySize * 15, 60)`. -/
def familySizeScoreOf (familySize : ℚ) : ℚ := min (familySize * 15) 60

/-- Embeds the disability component: `hasDisability ? 30 : 0`. -/
def disabilityScoreOf (hasDisability : Bool) : ℚ := if hasDisability then 30 else 0

/-- Embeds the commute component: `Math.max(0, 100 - (distanceToWork / maxDistance) * 100)`. -/
def distanceScoreOf (distanceToWork : ℚ) : ℚ :=
  max 0 (100 - (distanceToWork / maxDistance) * 100)

/-- Models JavaScript `Math.round` on exact rationals: round half toward
positive infinity, i.e. `x ↦ ⌊x + 1/2⌋`. -/
def jsRound (x : ℚ) : ℚ := (⌊x + 1 / 2⌋ : ℤ)

/-- Embeds `calculateFairnessScore`, mirroring the sequential
accumulation `score += component * weight` of the source, followed by
`Math.round(score * 100) / 100`. -/
def calculateFairnessScore (applicant : Applicant) : ℚ :=
  let score : ℚ := 0
  let score := score + incomeScoreOf applicant.income * 0.4
  let score := score + familySizeScoreOf applicant.familySize * 0.25
  let score := score + disabilityScoreOf applicant.hasDisability * 0.2
  let score := score + distanceScoreOf applicant.distanceToWork * 0.15
  jsRound (score * 100) / 100

/-- Embeds the spread-update `{...applicant, fairnessScore: calculateFairnessScore(applicant)}`:
all fields are copied and `fairnessScore` is overwritten with the computed score. -/
def withScore (a : Applicant) : Applicant :=
  { a with fairnessScore := some (calculateFairnessScore a) }

/-- Embeds the defaulting read `applicant.fairnessScore || 0` used by the
sort comparator (an absent score counts as 0). -/
def scoreOrDefault (a : Applicant) : ℚ := a.fairnessScore.getD 0

/-- Embeds the sort comparator `(a, b) => (b.fairnessScore || 0) - (a.fairnessScore || 0)`:
`a` may stay before `b` exactly when the comparator is ≤ 0, i.e. when the
score of `b` is at most the score of `a`. -/
def sortLe (a b : Applicant) : Bool := decide (scoreOrDefault b ≤ scoreOrDefault a)

/-- Models JavaScript `array.slice(0, n)` for an integer `n`, including
negative-end semantics: a negative `n` counts from the end of the array,
clamped at 0. -/
def jsSliceTo {α : Type} (n : ℤ) (l : List α) : List α :=
  if 0 ≤ n then l.take n.toNat else l.take ((l.length : ℤ) + n).toNat

/-- Embeds `allocateHousing`: score every applicant, stable-sort by score
descending, and truncate with `slice(0, availableUnits)`. -/
def allocateHousing (applicants : List Applicant) (availableUnits : ℤ) : List Applicant :=
  let applicantsWithScores := applicants.map withScore
  let sortedApplicants := applicantsWithScores.mergeSort sortLe
  jsSliceTo availableUnits sortedApplicants

/-- States the §4.1 combination formula in the spec's own words: the four
weighted sub-scores summed with weights 0.40 / 0.25 / 0.20 / 0.15. -/
def specRawScore (a : Applicant) : ℚ :=
  incomeScoreOf a.income * 0.40 + familySizeScoreOf a.familySize * 0.25 +
    disabilityScoreOf a.hasDisability * 0.20 + distanceScoreOf a.distanceToWork * 0.15

/-- States the spec's rounding clause: round-half-up at the hundredths
digit via `round(score * 100) / 100` semantics. -/
def specRoundTwoPlaces (x : ℚ) : ℚ := (⌊x * 100 + 1 / 2⌋ : ℤ) / 100

/-- Abbreviates the accumulated pre-rounding score of
`calculateFairnessScore`, for use in proofs about the rounding step. -/
def rawScore (a : Applicant) : ℚ :=
  0 + incomeScoreOf a.income * 0.4 + familySizeScoreOf a.familySize * 0.25 +
    disabilityScoreOf a.hasDisability * 0.2 + distanceScoreOf a.distanceToWork * 0.15

theorem calculateFairnessScore_eq (a : Applicant) :
    calculateFairnessScore a = (⌊rawScore a * 100 + 1 / 2⌋ : ℤ) / 100 := rfl

theorem jsSliceTo_sublist {α : Type} (n : ℤ) (l : List α) : (jsSliceTo n l).Sublist l := by
  unfold jsSliceTo
  split <;> exact List.take_sublist _ _

theorem sortLe_trans : ∀ a b c : Applicant, sortLe a b → sortLe b c → sortLe a c := by
  intro a b c
  simp only [sortLe, decide_eq_true_eq]
  intro h1 h2
  exact le_trans h2 h1

theorem sortLe_total : ∀ a b : Applicant, sortLe a b || sortLe b a := by
  intro a b
  simp only [sortLe, Bool.or_eq_true, decide_eq_true_eq]
  exact le_total _ _

theorem scoreOrDefault_withScore (a : Applicant) :
    scoreOrDefault (withScore a) = calculateFairnessScore a := rfl

theorem calculateFairnessScore_withScore (a : Applicant) :
    calculateFairnessScore (withScore a) = calculateFairnessScore a := rfl

theorem mem_allocateHousing {b : Applicant} {applicants : List Applicant} {n : ℤ}
    (hb : b ∈ allocateHousing applicants n) : ∃ a ∈ applicants, b = withScore a := by
  unfold allocateHousing at hb
  have h1 : b ∈ (applicants.map withScore).mergeSort sortLe :=
    (jsSliceTo_sublist n _).mem hb
  rw [List.mem_mergeSort, List.mem_map] at h1
  obtain ⟨a, ha, rfl⟩ := h1
  exact ⟨a, ha, rfl⟩

/-- C4: for every applicant the income sub-score equals
`max(0, 100 - (income / 100000) * 100)`; it is 0 whenever income ≥ 100000
and 100 whenever income = 0. -/
theorem incomeScore_formula (a : Applicant) :
    incomeScoreOf a.income = max 0 (100 - (a.income / 100000) * 100) ∧
    (100000 ≤ a.income → incomeScoreOf a.income = 0) ∧
    (a.income = 0 → incomeScoreOf a.income = 100) := by
  refine ⟨rfl, ?_, ?_⟩
  · intro h
    have h2 : (100 : ℚ) - (a.income / maxIncome) * 100 ≤ 0 := by
      rw [maxIncome]
      rw [div_mul_eq_mul_div, sub_nonpos, le_div_iff₀ (by norm_num : (0:ℚ) < 100000)]
      linarith
    simpa [incomeScoreOf] using max_eq_left h2
  · intro h
    simp [incomeScoreOf, h]

/-- Witness for C4 at a concrete applicant with income 100000,
discharging the hypotheses of both conditional conjuncts. -/
theorem incomeScore_formula_witness :
    incomeScoreOf (100000 : ℚ) = 0 := by
  have h := incomeScore_formula
    { id := "APP-001", name := "A", income := 100000, familySize := 1,
      hasDisability := false, distanceToWork := 0 }
  exact h.2.1 (by norm_num)

/-- C6: for every applicant, `calculateFairnessScore` returns the weighted
sum of the four sub-scores rounded to two decimal places with
round-half-up semantics at the hundredths digit. -/
theorem calculateFairnessScore_eq_roundedWeightedSum (a : Applicant) :
    calculateFairnessScore a = specRoundTwoPlaces (specRawScore a) := by
  simp only [calculateFairnessScore, specRoundTwoPlaces, specRawScore, jsRound]
  have h : ((0 + incomeScoreOf a.income * 0.4 + familySizeScoreOf a.familySize * 0.25 +
      disabilityScoreOf a.hasDisability * 0.2 + distanceScoreOf a.distanceToWork * 0.15) * 100
        + 1 / 2 : ℚ) =
      (incomeScoreOf a.income * 0.40 + familySizeScoreOf a.familySize * 0.25 +
        disabilityScoreOf a.hasDisability * 0.20 + distanceScoreOf a.distanceToWork * 0.15) * 100
        + 1 / 2 := by ring
  rw [h]

/-- C5: flipping only the disability flag from false to true raises the
rounded total score by exactly 6.00, for any values of the other fields. -/
theorem disability_adds_six (i n : String) (inc fam dist : ℚ) (s t : Option ℚ) :
    calculateFairnessScore
      { id := i, name := n, income := inc, familySize := fam,
        hasDisability := true, distanceToWork := dist, fairnessScore := s } =
    calculateFairnessScore
      { id := i, name := n, income := inc, familySize := fam,
        hasDisability := false, distanceToWork := dist, fairnessScore := t } + 6 := by
  simp only [calculateFairnessScore, jsRound, disabilityScoreOf, if_true, if_false]
  have h : ((0 + incomeScoreOf inc * 0.4 + familySizeScoreOf fam * 0.25 + 30 * 0.2 +
      distanceScoreOf dist * 0.15) * 100 + 1 / 2 : ℚ) =
      ((0 + incomeScoreOf inc * 0.4 + familySizeScoreOf fam * 0.25 + 0 * 0.2 +
        distanceScoreOf dist * 0.15) * 100 + 1 / 2) + ((600 : ℤ) : ℚ) := by
    push_cast
    ring
  rw [h, Int.floor_add_int]
  push_cast
  ring

/-- C1: for a non-negative unit count `n`, `allocateHousing` returns a
sequence of length `min n (number of applicants)`; it is empty at `n = 0`
and is the full scored-and-sorted population once `n` reaches the
population size. -/
theorem allocateHousing_length (applicants : List Applicant) (n : ℤ) (h : 0 ≤ n) :
    (allocateHousing applicants n).length = min n.toNat applicants.length ∧
    allocateHousing applicants 0 = [] ∧
    ((applicants.length : ℤ) ≤ n →
      allocateHousing applicants n = (applicants.map withScore).mergeSort sortLe) := by
  refine ⟨?_, ?_, ?_⟩
  · simp [allocateHousing, jsSliceTo, h, List.length_take]
  · simp [allocateHousing, jsSliceTo]
  · intro hle
    have hlen : ((applicants.map withScore).mergeSort sortLe).length ≤ n.toNat := by
      simp only [List.length_mergeSort, List.length_map]
      omega
    simp [allocateHousing, jsSliceTo, h, List.take_of_length_le hlen]

/-- Witness for C1 at one applicant and one unit. -/
theorem allocateHousing_length_witness :
    (allocateHousing
      [{ id := "APP-001", name := "A", income := 0, familySize := 4,
         hasDisability := true, distanceToWork := 0 }] 1).length = min 1 1 := by
  have h := allocateHousing_length
    [{ id := "APP-001", name := "A", income := 0, familySize := 4,
       hasDisability := true, distanceToWork := 0 }] 1 (by norm_num)
  exact h.1

/-- C2: the output of `allocateHousing` is sorted by fairness score in
descending order: every adjacent pair (a, b) satisfies
score(a) ≥ score(b). -/
theorem allocateHousing_sorted_desc (applicants : List Applicant) (n : ℤ) :
    List.Chain' (fun a b => calculateFairnessScore b ≤ calculateFairnessScore a)
      (allocateHousing applicants n) := by
  have hsorted : ((applicants.map withScore).mergeSort sortLe).Pairwise
      (fun a b => sortLe a b) :=
    List.sorted_mergeSort sortLe_trans sortLe_total _
  have hmem : ∀ x ∈ (applicants.map withScore).mergeSort sortLe,
      scoreOrDefault x = calculateFairnessScore x := by
    intro x hx
    rw [List.mem_mergeSort, List.mem_map] at hx
    obtain ⟨a, _, rfl⟩ := hx
    rw [scoreOrDefault_withScore, calculateFairnessScore_withScore]
  have hpair : ((applicants.map withScore).mergeSort sortLe).Pairwise
      (fun a b => calculateFairnessScore b ≤ calculateFairnessScore a) := by
    refine hsorted.imp_of_mem ?_
    intro a b ha hb hab
    have h1 := hmem a ha
    have h2 := hmem b hb
    simp only [sortLe, decide_eq_true_eq] at hab
    rw [← h1, ← h2]
    exact hab
  have hsub : (allocateHousing applicants n).Sublist
      ((applicants.map withScore).mergeSort sortLe) := jsSliceTo_sublist n _
  exact (hpair.sublist hsub).chain'

/-- C9: for a negative unit count `n`, `allocateHousing` neither clamps
to empty nor rejects: it returns the scored-and-sorted population with
its last |n| entries removed, so the result has length
max(population size + n, 0). -/
theorem allocateHousing_negative_units (applicants : List Applicant) (n : ℤ) (h : n < 0) :
    (allocateHousing applicants n).length = ((applicants.length : ℤ) + n).toNat ∧
    allocateHousing applicants n =
      ((applicants.map withScore).mergeSort sortLe).take
        ((applicants.length : ℤ) + n).toNat := by
  have hn : ¬ (0 : ℤ) ≤ n := not_le.mpr h
  constructor
  · simp only [allocateHousing, jsSliceTo, hn, if_false, List.length_take,
      List.length_mergeSort, List.length_map]
    omega
  · simp [allocateHousing, jsSliceTo, hn]

/-- Witness for C9: two applicants and -1 units leave one entry. -/
theorem allocateHousing_negative_units_witness :
    (allocateHousing
      [{ id := "APP-001", name := "A", income := 0, familySize := 4,
         hasDisability := true, distanceToWork := 0 },
       { id := "APP-002", name := "B", income := 100000, familySize := 1,
         hasDisability := false, distanceToWork := 50 }] (-1)).length = 1 := by
  have h := allocateHousing_negative_units
    [{ id := "APP-001", name := "A", income := 0, familySize := 4,
       hasDisability := true, distanceToWork := 0 },
     { id := "APP-002", name := "B", income := 100000, familySize := 1,
       hasDisability := false, distanceToWork := 50 }] (-1) (by norm_num)
  simpa using h.1

/-- C7: the allocator does not mutate its input (the embedding is a pure
function of the input list), and every entry of the result preserves all
original applicant fields unchanged, annotated with its computed score. -/
theorem allocateHousing_preserves_fields (applicants : List Applicant) (n : ℤ)
    (b : Applicant) (hb : b ∈ allocateHousing applicants n) :
    ∃ a ∈ applicants, b.id = a.id ∧ b.name = a.name ∧ b.income = a.income ∧
      b.familySize = a.familySize ∧ b.hasDisability = a.hasDisability ∧
      b.distanceToWork = a.distanceToWork ∧
      b.fairnessScore = some (calculateFairnessScore a) := by
  obtain ⟨a, ha, rfl⟩ := mem_allocateHousing hb
  exact ⟨a, ha, rfl, rfl, rfl, rfl, rfl, rfl, rfl⟩

/-- Witness for C7 at a single applicant and one unit. -/
theorem allocateHousing_preserves_fields_witness :
    ∃ a ∈ [({ id := "APP-001", name := "A", income := 0, familySize := 4,
              hasDisability := true, distanceToWork := 0 } : Applicant)],
      ({ id := "APP-001", name := "A", income := 0, familySize := 4,
         hasDisability := true, distanceToWork := 0,
         fairnessScore := some 76 } : Applicant).id = a.id ∧
      ({ id := "APP-001", name := "A", income := 0, familySize := 4,
         hasDisability := true, distanceToWork := 0,
         fairnessScore := some 76 } : Applicant).name = a.name ∧
      ({ id := "APP-001", name := "A", income := 0, familySize := 4,
         hasDisability := true, distanceToWork := 0,
         fairnessScore := some 76 } : Applicant).income = a.income ∧
      ({ id := "APP-001", name := "A", income := 0, familySize := 4,
         hasDisability := true, distanceToWork := 0,
         fairnessScore := some 76 } : Applicant).familySize = a.familySize ∧
      ({ id := "APP-001", name := "A", income := 0, familySize := 4,
         hasDisability := true, distanceToWork := 0,
         fairnessScore := some 76 } : Applicant).hasDisability = a.hasDisability ∧
      ({ id := "APP-001", name := "A", income := 0, familySize := 4,
         hasDisability := true, distanceToWork := 0,
         fairnessScore := some 76 } : Applicant).distanceToWork = a.distanceToWork ∧
      ({ id := "APP-001", name := "A", income := 0, familySize := 4,
         hasDisability := true, distanceToWork := 0,
         fairnessScore := some 76 } : Applicant).fairnessScore =
        some (calculateFairnessScore a) := by
  apply allocateHousing_preserves_fields
    [{ id := "APP-001", name := "A", income := 0, familySize := 4,
       hasDisability := true, distanceToWork := 0 }] 1
  norm_num [allocateHousing, jsSliceTo, withScore, calculateFairnessScore,
    incomeScoreOf, familySizeScoreOf, disabilityScoreOf, distanceScoreOf,
    jsRound, maxIncome, maxDistance]

/-- C8: every entry of the allocator's output carries a fairness score
recomputed from its own four source fields, and any externally supplied
score on the input is ignored and overwritten: rewriting the input scores
arbitrarily leaves the output unchanged. -/
theorem allocateHousing_recomputes_scores (applicants : List Applicant) (n : ℤ) :
    (∀ b ∈ allocateHousing applicants n,
      b.fairnessScore = some (calculateFairnessScore b)) ∧
    (∀ g : Applicant → Option ℚ,
      allocateHousing (applicants.map fun a => { a with fairnessScore := g a }) n =
        allocateHousing applicants n) := by
  constructor
  · intro b hb
    obtain ⟨a, _, rfl⟩ := mem_allocateHousing hb
    rfl
  · intro g
    unfold allocateHousing
    rw [List.map_map]
    have h : withScore ∘ (fun a => { a with fairnessScore := g a }) = withScore :=
      funext fun a => rfl
    rw [h]

/-- Witness for C8: the attached score of the single result entry equals
the recomputed fairness score of that entry. -/
theorem allocateHousing_recomputes_scores_witness :
    ({ id := "APP-001", name := "A", income := 0, familySize := 4,
       hasDisability := true, distanceToWork := 0,
       fairnessScore := some 76 } : Applicant).fairnessScore =
      some (calculateFairnessScore
        { id := "APP-001", name := "A", income := 0, familySize := 4,
          hasDisability := true, distanceToWork := 0,
          fairnessScore := some 76 }) := by
  apply (allocateHousing_recomputes_scores
    [{ id := "APP-001", name := "A", income := 0, familySize := 4,
       hasDisability := true, distanceToWork := 0 }] 1).1
  norm_num [allocateHousing, jsSliceTo, withScore, calculateFairnessScore,
    incomeScoreOf, familySizeScoreOf, disabilityScoreOf, distanceScoreOf,
    jsRound, maxIncome, maxDistance]

/-- C3: for every applicant with non-negative income, family size at
least 1, and non-negative commute distance, the fairness score is at most
76.00; the score is exactly 76.00 at income 0, family size at least 4,
disability flag true, and commute 0. -/
theorem fairnessScore_le_76 (a : Applicant) (hi : 0 ≤ a.income)
    (hf : 1 ≤ a.familySize) (hd : 0 ≤ a.distanceToWork) :
    calculateFairnessScore a ≤ 76 ∧
    (a.income = 0 → 4 ≤ a.familySize → a.hasDisability = true → a.distanceToWork = 0 →
      calculateFairnessScore a = 76) := by
  constructor
  · have h1 : incomeScoreOf a.income ≤ 100 := by
      unfold incomeScoreOf maxIncome
      refine max_le (by norm_num) ?_
      have hpos : 0 ≤ a.income / 100000 * 100 := by positivity
      linarith
    have h2 : familySizeScoreOf a.familySize ≤ 60 := min_le_right _ _
    have h3 : disabilityScoreOf a.hasDisability ≤ 30 := by
      unfold disabilityScoreOf
      split <;> norm_num
    have h4 : distanceScoreOf a.distanceToWork ≤ 100 := by
      unfold distanceScoreOf maxDistance
      refine max_le (by norm_num) ?_
      have hpos : 0 ≤ a.distanceToWork / 50 * 100 := by positivity
      linarith
    have hraw : rawScore a ≤ 76 := by
      unfold rawScore
      linarith
    rw [calculateFairnessScore_eq]
    have hfl : ⌊rawScore a * 100 + 1 / 2⌋ ≤ 7600 := by
      have hle : rawScore a * 100 + 1 / 2 ≤ 7600 + 1 / 2 := by linarith
      calc ⌊rawScore a * 100 + 1 / 2⌋ ≤ ⌊(7600 + 1 / 2 : ℚ)⌋ := Int.floor_le_floor hle
        _ = 7600 := by norm_num
    rw [div_le_iff₀ (by norm_num : (0 : ℚ) < 100)]
    calc ((⌊rawScore a * 100 + 1 / 2⌋ : ℤ) : ℚ) ≤ ((7600 : ℤ) : ℚ) := by exact_mod_cast hfl
      _ = 76 * 100 := by norm_num
  · intro h0 h4 hdis hc0
    have h1 : incomeScoreOf a.income = 100 := by
      rw [h0]
      norm_num [incomeScoreOf, maxIncome]
    have h2 : familySizeScoreOf a.familySize = 60 := by
      unfold familySizeScoreOf
      exact min_eq_right (by linarith)
    have h3 : disabilityScoreOf a.hasDisability = 30 := by
      rw [hdis]
      rfl
    have h4 : distanceScoreOf a.distanceToWork = 100 := by
      rw [hc0]
      norm_num [distanceScoreOf, maxDistance]
    have hraw : rawScore a = 76 := by
      unfold rawScore
      rw [h1, h2, h3, h4]
      norm_num
    rw [calculateFairnessScore_eq, hraw]
    norm_num

/-- Witness for C3 at the spec's concrete scenario: income 0, family
size 4, disabled, commute 0 scores exactly 76.00. -/
theorem fairnessScore_le_76_witness :
    calculateFairnessScore
      { id := "APP-001", name := "A", income := 0, familySize := 4,
        hasDisability := true, distanceToWork := 0 } ≤ 76 ∧
    calculateFairnessScore
      { id := "APP-001", name := "A", income := 0, familySize := 4,
        hasDisability := true, distanceToWork := 0 } = 76 := by
  have h := fairnessScore_le_76
    { id := "APP-001", name := "A", income := 0, familySize := 4,
      hasDisability := true, distanceToWork := 0 }
    (by norm_num) (by norm_num) (by norm_num)
  exact ⟨h.1, h.2 (by norm_num) (by norm_num) rfl (by norm_num)⟩

/-- C10: the fairness score is monotone non-increasing in income: with
family size, disability flag, and commute distance held fixed, a lower or
equal income yields a greater or equal total score. -/
theorem fairnessScore_antitone_income (a b : Applicant)
    (hf : a.familySize = b.familySize) (hd : a.hasDisability = b.hasDisability)
    (hc : a.distanceToWork = b.distanceToWork) (hi : a.income ≤ b.income) :
    calculateFairnessScore b ≤ calculateFairnessScore a := by
  have h1 : incomeScoreOf b.income ≤ incomeScoreOf a.income := by
    unfold incomeScoreOf maxIncome
    refine max_le_max le_rfl ?_
    have hmul : a.income / 100000 * 100 ≤ b.income / 100000 * 100 := by gcongr
    linarith
  have h2 : rawScore b ≤ rawScore a := by
    unfold rawScore
    rw [← hf, ← hd, ← hc]
    linarith
  rw [calculateFairnessScore_eq, calculateFairnessScore_eq]
  have h3 : ⌊rawScore b * 100 + 1 / 2⌋ ≤ ⌊rawScore a * 100 + 1 / 2⌋ :=
    Int.floor_le_floor (by linarith)
  have h4 : ((⌊rawScore b * 100 + 1 / 2⌋ : ℤ) : ℚ) ≤ ((⌊rawScore a * 100 + 1 / 2⌋ : ℤ) : ℚ) := by
    exact_mod_cast h3
  linarith

/-- Witness for C10: raising income from 0 to 50000 with the other fields
fixed does not raise the score. -/
theorem fairnessScore_antitone_income_witness :
    calculateFairnessScore
      { id := "APP-002", name := "B", income := 50000, familySize := 4,
        hasDisability := true, distanceToWork := 0 } ≤
    calculateFairnessScore
      { id := "APP-001", name := "A", income := 0, familySize := 4,
        hasDisability := true, distanceToWork := 0 } := by
  exact fairnessScore_antitone_income
    { id := "APP-001", name := "A", income := 0, familySize := 4,
      hasDisability := true, distanceToWork := 0 }
    { id := "APP-002", name := "B", income := 50000, familySize := 4,
      hasDisability := true, distanceToWork := 0 }
    rfl rfl rfl (by norm_num)
